import Mathlib

/-!
# Verification of the Connect-Four telnet server (`src/server.rs`)

A shallow embedding of the game logic of the server: the 6×7 board
(`GameState`), move validation (`is_valid_move`), the drop-based move
application with turn flip (`update_game_state`), win detection
(`check_winner`), the per-connection handler step (`handle_step`) and the
connection acceptor's seating logic (`accept_step`), together with theorems
about them.

Cells hold `0` (empty), `1` (player X) or `-1` (player O), exactly as the
`i32` cells of the Rust code.
-/

namespace ConnectFour

/-- The `GameState` struct: a 6×7 board of `i32` cells and the current turn.
The board is embedded as a total function from (row, column) indices; only
indices with row < 6 and column < 7 are ever accessed (proved below). -/
structure GameState where
  board : Nat → Nat → Int
  current_turn : Int

/-- The `Move` struct: the column where the piece is played. -/
structure Move where
  col : Nat

/-- The game state built by `GameRoom::new()`: all cells `0`, turn `1`. -/
def newGameState : GameState :=
  { board := fun _ _ => (0 : Int), current_turn := 1 }

/-- `is_valid_move`: the column is in range and the top cell of that column
is empty (`player_move.col < 7 && game_state.board[0][player_move.col] == 0`). -/
def is_valid_move (game_state : GameState) (player_move : Move) : Bool :=
  decide (player_move.col < 7) && (game_state.board 0 player_move.col == 0)

/-- The row-scan loop of `update_game_state`:
`let mut row = 5; while row > 0 && board[row][col] != 0 { row -= 1; }`,
written as a recursion on the row counter. `find_row_aux gs col r` is the
final value of `row` when the loop is entered with `row = r`. -/
def find_row_aux (game_state : GameState) (col : Nat) : Nat → Nat
  | 0 => 0
  | r + 1 =>
    if game_state.board (r + 1) col != 0 then find_row_aux game_state col r
    else r + 1

/-- The rejection message of `update_game_state`. -/
def invalidMoveMsg : String := "Jogada inválida. Escolha uma coluna vazia."

/-- `GameRoom::update_game_state`: reject the move if `is_valid_move` fails
(leaving the state untouched); otherwise drop the piece at the row found by
the scan loop starting at row 5, then negate `current_turn`.  The `&mut self`
mutation is embedded by returning the new state next to the `Result`. -/
def update_game_state (game_state : GameState) (player_move : Move) :
    Except String Unit × GameState :=
  if ¬ is_valid_move game_state player_move then
    (Except.error invalidMoveMsg, game_state)
  else
    let row := find_row_aux game_state player_move.col 5
    let newBoard : Nat → Nat → Int := fun r c =>
      if r = row ∧ c = player_move.col then game_state.current_turn
      else game_state.board r c
    (Except.ok (), { board := newBoard, current_turn := -game_state.current_turn })

/-- `check_winner`: the four scan loops of the Rust function, in order —
horizontal windows (rows 0..6, columns 0..4), vertical windows (columns 0..7,
rows 0..3), down-right diagonals (rows 0..3, columns 0..4) and up-right
diagonals (rows 3..6, columns 0..4). -/
def check_winner (game_state : GameState) (player_symbol : Int) : Bool :=
  ((List.range 6).any fun row => (List.range 4).any fun col =>
      game_state.board row col == player_symbol &&
      game_state.board row (col + 1) == player_symbol &&
      game_state.board row (col + 2) == player_symbol &&
      game_state.board row (col + 3) == player_symbol) ||
  ((List.range 7).any fun col => (List.range 3).any fun row =>
      game_state.board row col == player_symbol &&
      game_state.board (row + 1) col == player_symbol &&
      game_state.board (row + 2) col == player_symbol &&
      game_state.board (row + 3) col == player_symbol) ||
  ((List.range 3).any fun row => (List.range 4).any fun col =>
      game_state.board row col == player_symbol &&
      game_state.board (row + 1) (col + 1) == player_symbol &&
      game_state.board (row + 2) (col + 2) == player_symbol &&
      game_state.board (row + 3) (col + 3) == player_symbol) ||
  ((List.range' 3 3).any fun row => (List.range 4).any fun col =>
      game_state.board row col == player_symbol &&
      game_state.board (row - 1) (col + 1) == player_symbol &&
      game_state.board (row - 2) (col + 2) == player_symbol &&
      game_state.board (row - 3) (col + 3) == player_symbol)

/-! ## Session handler (`handle_client`), one loop iteration -/

/-- Rust's `char::is_whitespace`: the Unicode `White_Space` property.  The
set is U+0009–U+000D (tab, LF, VT, FF, CR), space, U+0085 (NEL), U+00A0
(NBSP), U+1680, U+2000–U+200A, U+2028, U+2029, U+202F, U+205F and U+3000 —
strictly larger than Lean's ASCII-only `Char.isWhitespace` (which omits VT,
FF, NBSP and the non-ASCII points). -/
def rust_is_whitespace (c : Char) : Bool :=
  (0x09 ≤ c.toNat && c.toNat ≤ 0x0D) || c.toNat == 0x20 || c.toNat == 0x85 ||
  c.toNat == 0xA0 || c.toNat == 0x1680 ||
  (0x2000 ≤ c.toNat && c.toNat ≤ 0x200A) ||
  c.toNat == 0x2028 || c.toNat == 0x2029 || c.toNat == 0x202F ||
  c.toNat == 0x205F || c.toNat == 0x3000

/-- `buffer.trim().split_whitespace()`: split the line into maximal runs of
non-`White_Space` characters, discarding all whitespace (trimming first makes
no difference, as `split_whitespace` already drops leading and trailing
whitespace).  Written as a structural recursion over the character list;
`cur` accumulates the current token in reverse. -/
def split_ws_aux (cur : List Char) : List Char → List String
  | [] => if cur.isEmpty then [] else [String.mk cur.reverse]
  | c :: rest =>
    if rust_is_whitespace c then
      if cur.isEmpty then split_ws_aux [] rest
      else String.mk cur.reverse :: split_ws_aux [] rest
    else split_ws_aux (c :: cur) rest

/-- Tokenization of one input line, as `handle_client` performs it. -/
def tokenize (line : String) : List String :=
  split_ws_aux [] line.data

/-- `usize::MAX` of the server's 64-bit target (on any narrower target the
bound shrinks but the failure path below is the same). -/
def USIZE_MAX : Nat := 2 ^ 64 - 1

/-- Digit-string accumulation for `parse::<usize>()`: each step is Rust's
checked `acc * 10 + digit`, failing on a non-ASCII-digit character or when
the accumulator would exceed `usize::MAX` (the `PosOverflow` error). -/
def parse_digits_aux (acc : Nat) : List Char → Option Nat
  | [] => some acc
  | c :: rest =>
    if c.isDigit then
      let acc2 := acc * 10 + (c.toNat - 48)
      if acc2 ≤ USIZE_MAX then parse_digits_aux acc2 rest else none
    else none

/-- `str::parse::<usize>()`: an optional leading `+`, then at least one
ASCII digit, accumulated with overflow checks. -/
def parse_usize (s : String) : Option Nat :=
  match s.data with
  | [] => none
  | '+' :: rest => if rest.isEmpty then none else parse_digits_aux 0 rest
  | cs => parse_digits_aux 0 cs

/-- The user-facing message when the single token is not a number. -/
def invalidColumnMsg : String :=
  "Coluna inválida. Use o formato: número da coluna (ex: 1)\n"

/-- The user-facing message when the token count is not one. -/
def invalidFormatMsg : String :=
  "Formato de jogada inválido. Use o formato: número da coluna (ex: 1)\n"

/-- What one iteration of the `handle_client` loop did, beyond pushing the
board rendering. -/
inductive HandlerEvent where
  /-- `current_turn != player_symbol`: the handler dropped the lock and
  `continue`d without reading from the socket. -/
  | waited : HandlerEvent
  /-- A malformed line: the given invalid-format message was written and no
  move was attempted. -/
  | invalidFormat (msg : String) : HandlerEvent
  /-- `update_game_state` returned `Err(msg)`; the message was written. -/
  | rejected (msg : String) : HandlerEvent
  /-- The move was applied and `check_winner` was false: loop continues. -/
  | moved : HandlerEvent
  /-- The move was applied and `check_winner` was true: victory message,
  handler terminates. -/
  | won : HandlerEvent
deriving DecidableEq

/-- One iteration of the `handle_client` loop, given the room state, this
connection's symbol, and the line that would be read from the socket: if it
is not this player's turn the handler continues polling without reading;
otherwise the line is read, tokenized, parsed and submitted to
`update_game_state` exactly as in the Rust `match`. -/
def handle_step (game_state : GameState) (player_symbol : Int) (line : String) :
    HandlerEvent × GameState :=
  if game_state.current_turn != player_symbol then (HandlerEvent.waited, game_state)
  else
    match tokenize line with
    | [tok] =>
      match parse_usize tok with
      | some col =>
        match update_game_state game_state { col := col } with
        | (Except.ok _, gs) =>
          if check_winner gs player_symbol then (HandlerEvent.won, gs)
          else (HandlerEvent.moved, gs)
        | (Except.error msg, gs) => (HandlerEvent.rejected msg, gs)
      | none => (HandlerEvent.invalidFormat invalidColumnMsg, game_state)
    | _ => (HandlerEvent.invalidFormat invalidFormatMsg, game_state)

/-! ## Connection acceptor (`main`), one accepted connection -/

/-- The `Player` struct: assigned symbol and remote address. -/
structure Player where
  symbol : Int
  address : String
deriving DecidableEq

/-- The room-full notice of `main` (the Rust writes it as Latin-1 bytes). -/
def roomFullMsg : String := "Jogo já cheio, aguarde uma nova partida!\n"

/-- What `main` did with one accepted connection. -/
structure AcceptResult where
  /-- The symbol assigned to the connection, if it was seated. -/
  assigned : Option Int
  /-- Whether a `handle_client` task was spawned for the connection. -/
  spawned : Bool
  /-- The notice written to an unseated connection. -/
  notice : Option String
deriving DecidableEq

/-- One iteration of the accept loop of `main`: with fewer than two players
seated, push a `Player` with symbol `1` (empty roster) or `-1` (otherwise)
and spawn a handler; with two players seated, write the room-full notice,
assign no symbol and spawn nothing. -/
def accept_step (players : List Player) (addr : String) :
    AcceptResult × List Player :=
  if players.length < 2 then
    let sym : Int := if players.isEmpty then 1 else -1
    ({ assigned := some sym, spawned := true, notice := none },
     players ++ [{ symbol := sym, address := addr }])
  else
    ({ assigned := none, spawned := false, notice := some roomFullMsg }, players)

/-! ## Move sequences -/

/-- Run a list of move attempts through `update_game_state`, returning the
final state and the number of accepted moves. -/
def run_moves : GameState → List Move → GameState × Nat
  | gs, [] => (gs, 0)
  | gs, m :: ms =>
    let out := update_game_state gs m
    let rest := run_moves out.2 ms
    (rest.1, (if out.1.isOk then 1 else 0) + rest.2)

/-! ## Bounds-checked mirror of the board accesses

Rust indexing `board[r][c]` panics out of bounds.  `board_get?` is the
checked access; `is_valid_move_chk` and `update_game_state_chk` repeat the
two functions with every access checked, returning `none` where the Rust
would panic. -/

/-- Checked cell read: `none` outside the 6×7 grid. -/
def board_get? (game_state : GameState) (r c : Nat) : Option Int :=
  if r < 6 ∧ c < 7 then some (game_state.board r c) else none

/-- Checked cell write: `none` outside the 6×7 grid. -/
def board_set? (game_state : GameState) (r c : Nat) (v : Int) :
    Option GameState :=
  if r < 6 ∧ c < 7 then
    some { game_state with
           board := fun r0 c0 =>
             if r0 = r ∧ c0 = c then v else game_state.board r0 c0 }
  else none

/-- `is_valid_move` with the board access checked; the `&&` short-circuit
means the access happens only under `col < 7`. -/
def is_valid_move_chk (game_state : GameState) (player_move : Move) :
    Option Bool :=
  if player_move.col < 7 then
    match board_get? game_state 0 player_move.col with
    | some v => some (v == 0)
    | none => none
  else some false

/-- The row-scan loop with each guard access checked. -/
def find_row_aux_chk (game_state : GameState) (col : Nat) :
    Nat → Option Nat
  | 0 => some 0
  | r + 1 =>
    match board_get? game_state (r + 1) col with
    | none => none
    | some v =>
      if v != 0 then find_row_aux_chk game_state col r else some (r + 1)

/-- `update_game_state` with every board access checked. -/
def update_game_state_chk (game_state : GameState) (player_move : Move) :
    Option (Except String Unit × GameState) :=
  match is_valid_move_chk game_state player_move with
  | none => none
  | some false => some (Except.error invalidMoveMsg, game_state)
  | some true =>
    match find_row_aux_chk game_state player_move.col 5 with
    | none => none
    | some row =>
      match board_set? game_state row player_move.col game_state.current_turn with
      | none => none
      | some gs =>
        some (Except.ok (), { gs with current_turn := -game_state.current_turn })

/-! ## Specification-side win predicate

`has_won_spec` states, in the spec's words, that at least one run of four
contiguous cells of the symbol exists in one of the four directions —
horizontal, vertical, down-right diagonal, up-right diagonal — over every
window of length 4 that fits on the 6×7 board. -/

/-- At least one length-4 run of `s` exists on the board, in any of the four
directions, anywhere it fits. -/
def has_won_spec (game_state : GameState) (s : Int) : Prop :=
  (∃ r c, r < 6 ∧ c + 3 < 7 ∧
    ∀ i, i ≤ 3 → game_state.board r (c + i) = s) ∨
  (∃ r c, r + 3 < 6 ∧ c < 7 ∧
    ∀ i, i ≤ 3 → game_state.board (r + i) c = s) ∨
  (∃ r c, r + 3 < 6 ∧ c + 3 < 7 ∧
    ∀ i, i ≤ 3 → game_state.board (r + i) (c + i) = s) ∨
  (∃ r c, 3 ≤ r ∧ r < 6 ∧ c + 3 < 7 ∧
    ∀ i, i ≤ 3 → game_state.board (r - i) (c + i) = s)

/-! ## Helper lemmas -/

/-- `is_valid_move` unfolded to its two conditions. -/
lemma is_valid_move_iff (gs : GameState) (m : Move) :
    is_valid_move gs m = true ↔ (m.col < 7 ∧ gs.board 0 m.col = 0) := by
  simp [is_valid_move]

/-- An invalid move leaves `update_game_state` on its early-return branch. -/
lemma update_game_state_of_invalid (gs : GameState) (m : Move)
    (h : is_valid_move gs m = false) :
    update_game_state gs m = (Except.error invalidMoveMsg, gs) := by
  simp [update_game_state, h]

/-- A valid move succeeds and negates the turn. -/
lemma update_game_state_of_valid (gs : GameState) (m : Move)
    (h : is_valid_move gs m = true) :
    (update_game_state gs m).1 = Except.ok () ∧
    (update_game_state gs m).2.current_turn = -gs.current_turn := by
  simp [update_game_state, h]

/-- The board written by a valid move, cell by cell. -/
lemma update_game_state_board_of_valid (gs : GameState) (m : Move)
    (h : is_valid_move gs m = true) (r c : Nat) :
    (update_game_state gs m).2.board r c =
      if r = find_row_aux gs m.col 5 ∧ c = m.col then gs.current_turn
      else gs.board r c := by
  simp [update_game_state, h]

/-- The scan loop never moves the row upward past its starting point. -/
lemma find_row_aux_le (gs : GameState) (col : Nat) :
    ∀ n, find_row_aux gs col n ≤ n := by
  intro n
  induction n with
  | zero => simp [find_row_aux]
  | succ k ih =>
    unfold find_row_aux
    split
    · omega
    · omega

/-- If the top cell of the column is empty, the scan loop stops on an empty
cell. -/
lemma find_row_aux_empty (gs : GameState) (col : Nat)
    (h0 : gs.board 0 col = 0) :
    ∀ n, gs.board (find_row_aux gs col n) col = 0 := by
  intro n
  induction n with
  | zero => simpa [find_row_aux] using h0
  | succ k ih =>
    unfold find_row_aux
    split
    · exact ih
    · next hne => simpa using hne

/-- Every cell of the column strictly between the scan loop's result and its
starting point is occupied. -/
lemma find_row_aux_above (gs : GameState) (col : Nat) :
    ∀ n r, find_row_aux gs col n < r → r ≤ n → gs.board r col ≠ 0 := by
  intro n
  induction n with
  | zero => intro r h1 h2; omega
  | succ k ih =>
    intro r h1 h2
    revert h1
    unfold find_row_aux
    split
    · next hne =>
      intro h1
      rcases Nat.lt_or_ge r (k + 1) with hr | hr
      · exact ih r h1 (by omega)
      · have : r = k + 1 := by omega
        subst this
        simpa using hne
    · intro h1; omega

/-- `(∀ i ≤ 3, P i)` spelled out as the four instances. -/
lemma window4_iff (P : Nat → Prop) :
    (∀ i, i ≤ 3 → P i) ↔ (P 0 ∧ P 1 ∧ P 2 ∧ P 3) := by
  constructor
  · intro h; exact ⟨h 0 (by omega), h 1 (by omega), h 2 (by omega), h 3 (by omega)⟩
  · rintro ⟨h0, h1, h2, h3⟩ i hi
    interval_cases i <;> assumption

/-! ## The claims -/

/-- Claim C5: a move is legal (`is_valid_move` returns true) iff the column
index is below 7 and the top cell (row 0) of that column is empty;
consequently a move into a fully occupied column, or with an out-of-range
column index, is always rejected. -/
theorem valid_move_iff_in_range_and_top_empty (gs : GameState) (m : Move) :
    (is_valid_move gs m = true ↔ (m.col < 7 ∧ gs.board 0 m.col = 0)) ∧
    ((∀ r, r < 6 → gs.board r m.col ≠ 0) → is_valid_move gs m = false) ∧
    (7 ≤ m.col → is_valid_move gs m = false) := by
  refine ⟨is_valid_move_iff gs m, ?_, ?_⟩
  · intro hfull
    have h0 := hfull 0 (by omega)
    simp [is_valid_move, h0]
  · intro hcol
    simp [is_valid_move]
    omega

/-- Witness for C5 at concrete inputs: a board whose column 0 is fully
occupied rejects a drop into column 0, and column index 7 is rejected on the
empty board. -/
theorem valid_move_iff_witness :
    (is_valid_move newGameState (Move.mk 3) = true ↔
      ((Move.mk 3).col < 7 ∧ newGameState.board 0 (Move.mk 3).col = 0)) ∧
    is_valid_move { board := fun _ _ => (1 : Int), current_turn := 1 } (Move.mk 0) = false ∧
    is_valid_move newGameState (Move.mk 7) = false :=
  ⟨(valid_move_iff_in_range_and_top_empty newGameState (Move.mk 3)).1,
   (valid_move_iff_in_range_and_top_empty
      { board := fun _ _ => (1 : Int), current_turn := 1 } (Move.mk 0)).2.1
     (fun r _ => by simp),
   (valid_move_iff_in_range_and_top_empty newGameState (Move.mk 7)).2.2 (by decide)⟩

/-- Claim C6: whenever `update_game_state` returns an error, the whole game
state is unchanged — every board cell and the turn marker keep their values
(atomicity of rejection). -/
theorem rejected_move_leaves_state_unchanged (gs : GameState) (m : Move)
    (h : (update_game_state gs m).1.isOk = false) :
    (∀ r c, (update_game_state gs m).2.board r c = gs.board r c) ∧
    (update_game_state gs m).2.current_turn = gs.current_turn := by
  by_cases hv : is_valid_move gs m
  · have := update_game_state_of_valid gs m hv
    rw [this.1] at h
    simp [Except.isOk, Except.toBool] at h
  · have := update_game_state_of_invalid gs m (by simpa using hv)
    rw [this]
    exact ⟨fun r c => rfl, rfl⟩

/-- Witness for C6: dropping into column 7 of the fresh board fails and
changes nothing. -/
theorem rejected_move_unchanged_witness :
    (update_game_state newGameState (Move.mk 7)).1.isOk = false ∧
    ((∀ r c, (update_game_state newGameState (Move.mk 7)).2.board r c =
        newGameState.board r c) ∧
     (update_game_state newGameState (Move.mk 7)).2.current_turn =
        newGameState.current_turn) :=
  ⟨by decide, rejected_move_leaves_state_unchanged newGameState (Move.mk 7) (by decide)⟩

/-- Claim C3: the turn marker flips to its negation exactly once per
successfully applied move, never changes on a rejected move, and therefore
over any sequence of move attempts the final turn is the initial turn times
`(-1)` to the number of accepted moves. -/
theorem turn_flips_once_per_accepted_move :
    (∀ gs m, ((update_game_state gs m).1.isOk = true →
        (update_game_state gs m).2.current_turn = -gs.current_turn) ∧
      ((update_game_state gs m).1.isOk = false →
        (update_game_state gs m).2.current_turn = gs.current_turn)) ∧
    (∀ gs ms, (run_moves gs ms).1.current_turn =
        (-1) ^ (run_moves gs ms).2 * gs.current_turn) := by
  have step : ∀ gs m, ((update_game_state gs m).1.isOk = true →
      (update_game_state gs m).2.current_turn = -gs.current_turn) ∧
      ((update_game_state gs m).1.isOk = false →
        (update_game_state gs m).2.current_turn = gs.current_turn) := by
    intro gs m
    by_cases hv : is_valid_move gs m
    · have h := update_game_state_of_valid gs m hv
      refine ⟨fun _ => h.2, fun hko => ?_⟩
      rw [h.1] at hko
      simp [Except.isOk, Except.toBool] at hko
    · have h := update_game_state_of_invalid gs m (by simpa using hv)
      rw [h]
      exact ⟨fun hok => by simp [Except.isOk, Except.toBool] at hok, fun _ => rfl⟩
  refine ⟨step, ?_⟩
  intro gs ms
  induction ms generalizing gs with
  | nil => simp [run_moves]
  | cons m ms ih =>
    show (run_moves (update_game_state gs m).2 ms).1.current_turn =
      (-1) ^ ((if (update_game_state gs m).1.isOk then 1 else 0) +
        (run_moves (update_game_state gs m).2 ms).2) * gs.current_turn
    rw [ih]
    by_cases hok : (update_game_state gs m).1.isOk
    · rw [(step gs m).1 hok]
      simp [hok, pow_add]
    · rw [(step gs m).2 (by simpa using hok)]
      simp [hok]

/-- Witness for C3: on the fresh board, an accepted drop into column 0 flips
the turn, and a rejected drop into column 7 keeps it. -/
theorem turn_flip_witness :
    (update_game_state newGameState (Move.mk 0)).2.current_turn =
      -newGameState.current_turn ∧
    (update_game_state newGameState (Move.mk 7)).2.current_turn =
      newGameState.current_turn :=
  ⟨(turn_flips_once_per_accepted_move.1 newGameState (Move.mk 0)).1 (by decide),
   (turn_flips_once_per_accepted_move.1 newGameState (Move.mk 7)).2 (by decide)⟩

/-- Claim C7: seating follows connection order — an empty roster yields
symbol 1 (A) and a spawned handler, a one-entry roster yields symbol -1 (B)
and a spawned handler, and with two or more seated players every further
connection gets only the room-full notice, no symbol, no handler, and the
roster is unchanged. -/
theorem seating_assigns_symbols_in_order (ps : List Player) (addr : String) :
    (ps = [] → accept_step ps addr =
      ({ assigned := some 1, spawned := true, notice := none },
       ps ++ [{ symbol := 1, address := addr }])) ∧
    (ps.length = 1 → accept_step ps addr =
      ({ assigned := some (-1), spawned := true, notice := none },
       ps ++ [{ symbol := -1, address := addr }])) ∧
    (2 ≤ ps.length → accept_step ps addr =
      ({ assigned := none, spawned := false, notice := some roomFullMsg }, ps)) := by
  refine ⟨?_, ?_, ?_⟩
  · intro h
    subst h
    simp [accept_step]
  · intro h
    have hne : ¬ ps.isEmpty := by
      cases ps with
      | nil => simp at h
      | cons p l => simp
    simp [accept_step, h, hne]
  · intro h
    have : ¬ ps.length < 2 := by omega
    simp [accept_step, this]

/-- Witness for C7 at a concrete connection sequence: first connection seats
symbol 1, second seats symbol -1, third gets the room-full notice. -/
theorem seating_witness :
    accept_step [] "a1" =
      ({ assigned := some 1, spawned := true, notice := none },
       [] ++ [{ symbol := 1, address := "a1" }]) ∧
    accept_step [{ symbol := 1, address := "a1" }] "a2" =
      ({ assigned := some (-1), spawned := true, notice := none },
       [{ symbol := 1, address := "a1" }] ++ [{ symbol := -1, address := "a2" }]) ∧
    accept_step [{ symbol := 1, address := "a1" },
                 { symbol := -1, address := "a2" }] "a3" =
      ({ assigned := none, spawned := false, notice := some roomFullMsg },
       [{ symbol := 1, address := "a1" }, { symbol := -1, address := "a2" }]) :=
  ⟨(seating_assigns_symbols_in_order [] "a1").1 rfl,
   (seating_assigns_symbols_in_order [{ symbol := 1, address := "a1" }] "a2").2.1 rfl,
   (seating_assigns_symbols_in_order [{ symbol := 1, address := "a1" },
      { symbol := -1, address := "a2" }] "a3").2.2 (by decide)⟩

/-- Claim C4, counterexample: `update_game_state` performs no turn check, so
an out-of-turn submission is not met with a rejection.  On the fresh board
(turn 1), player -1 submitting column 0 sees no rejection: the handler only
waits (it never reads the line), and the attempt-move operation itself — which
takes no submitter symbol at all — succeeds and mutates the board when
invoked. -/
theorem out_of_turn_not_rejected_counterexample :
    newGameState.current_turn = 1 ∧
    (handle_step newGameState (-1) "0").1 = HandlerEvent.waited ∧
    (update_game_state newGameState (Move.mk 0)).1.isOk = true ∧
    (update_game_state newGameState (Move.mk 0)).2.board 5 0 ≠
      newGameState.board 5 0 := by
  refine ⟨rfl, by decide, by decide, by decide⟩

/-- Claim C4 as amended: when a move is submitted by a symbol while the turn
marker indicates the other symbol, the session handler does not read or apply
the move and produces no rejection: it keeps polling (`HandlerEvent.waited`)
and the game state is unchanged. -/
theorem out_of_turn_submission_waits (gs : GameState) (sym : Int) (line : String)
    (h : gs.current_turn ≠ sym) :
    handle_step gs sym line = (HandlerEvent.waited, gs) := by
  simp [handle_step, h]

/-- Witness for amended C4: on the fresh board (turn 1) a submission by
player -1 leaves the handler waiting and the state untouched. -/
theorem out_of_turn_waits_witness :
    handle_step newGameState (-1) "3" = (HandlerEvent.waited, newGameState) :=
  out_of_turn_submission_waits newGameState (-1) "3" (by decide)

/-- Claim C9: on the submitting player's turn, an input line that does not
tokenize to exactly one token, or whose single token does not parse as a
non-negative integer, yields an invalid-format message, never reaches
`update_game_state`, and leaves the game state (board and turn) unchanged. -/
theorem malformed_line_consumes_no_turn (gs : GameState) (sym : Int)
    (line : String) (hturn : gs.current_turn = sym)
    (hbad : (∀ t, tokenize line ≠ [t]) ∨
            (∃ t, tokenize line = [t] ∧ parse_usize t = none)) :
    (∃ msg, (handle_step gs sym line).1 = HandlerEvent.invalidFormat msg) ∧
    (handle_step gs sym line).2 = gs := by
  have hg : (gs.current_turn != sym) = false := by
    simp [hturn]
  unfold handle_step
  rw [hg]
  simp only [Bool.false_eq_true, if_false]
  rcases htok : tokenize line with _ | ⟨t, rest⟩
  · exact ⟨⟨invalidFormatMsg, rfl⟩, rfl⟩
  · rcases rest with _ | ⟨t2, rest2⟩
    · rcases hbad with hall | ⟨t0, ht0, hp0⟩
      · exact absurd htok (hall t)
      · rw [htok] at ht0
        have : t0 = t := by
          injection ht0 with h1 _
          exact h1.symm
        subst this
        exact ⟨⟨invalidColumnMsg, by simp [hp0]⟩, by simp [hp0]⟩
    · exact ⟨⟨invalidFormatMsg, rfl⟩, rfl⟩

/-- Witness for C9: on the fresh board, player 1 submitting "abc" (one
non-numeric token), "1 2" (two tokens) or "18446744073709551616" (2^64, which
overflows `usize` and so fails Rust's parse) gets a format message and the
state is unchanged. -/
theorem malformed_line_witness :
    ((∃ msg, (handle_step newGameState 1 "abc").1 = HandlerEvent.invalidFormat msg) ∧
     (handle_step newGameState 1 "abc").2 = newGameState) ∧
    ((∃ msg, (handle_step newGameState 1 "1 2").1 = HandlerEvent.invalidFormat msg) ∧
     (handle_step newGameState 1 "1 2").2 = newGameState) ∧
    ((∃ msg, (handle_step newGameState 1 "18446744073709551616").1 =
        HandlerEvent.invalidFormat msg) ∧
     (handle_step newGameState 1 "18446744073709551616").2 = newGameState) :=
  ⟨malformed_line_consumes_no_turn newGameState 1 "abc" rfl
     (Or.inr ⟨"abc", by decide, by decide⟩),
   malformed_line_consumes_no_turn newGameState 1 "1 2" rfl
     (Or.inl (fun t h => by
        rw [show tokenize "1 2" = ["1", "2"] from by decide] at h
        exact absurd h (by simp))),
   malformed_line_consumes_no_turn newGameState 1 "18446744073709551616" rfl
     (Or.inr ⟨"18446744073709551616", by decide, by decide⟩)⟩

/-- Claim C2: a legal move writes the mover's symbol (the current turn) into
exactly the lowest empty row of the target column — the largest row index
whose cell in that column is empty — and changes no other cell. -/
theorem legal_drop_lands_in_lowest_empty_row (gs : GameState) (m : Move)
    (h : is_valid_move gs m = true) :
    (update_game_state gs m).1 = Except.ok () ∧
    ∃ row, row < 6 ∧ gs.board row m.col = 0 ∧
      (∀ r, row < r → r < 6 → gs.board r m.col ≠ 0) ∧
      (update_game_state gs m).2.board row m.col = gs.current_turn ∧
      (∀ r c, ¬(r = row ∧ c = m.col) →
        (update_game_state gs m).2.board r c = gs.board r c) := by
  have h0 : gs.board 0 m.col = 0 := ((is_valid_move_iff gs m).mp h).2
  refine ⟨(update_game_state_of_valid gs m h).1,
    find_row_aux gs m.col 5, ?_, ?_, ?_, ?_, ?_⟩
  · have := find_row_aux_le gs m.col 5
    omega
  · exact find_row_aux_empty gs m.col h0 5
  · intro r h1 h2
    exact find_row_aux_above gs m.col 5 r h1 (by omega)
  · rw [update_game_state_board_of_valid gs m h]
    simp
  · intro r c hne
    rw [update_game_state_board_of_valid gs m h, if_neg hne]

/-- Witness for C2: dropping into column 3 of the fresh board. -/
theorem legal_drop_witness :
    is_valid_move newGameState (Move.mk 3) = true ∧
    ((update_game_state newGameState (Move.mk 3)).1 = Except.ok () ∧
     ∃ row, row < 6 ∧ newGameState.board row (Move.mk 3).col = 0 ∧
       (∀ r, row < r → r < 6 → newGameState.board r (Move.mk 3).col ≠ 0) ∧
       (update_game_state newGameState (Move.mk 3)).2.board row (Move.mk 3).col =
         newGameState.current_turn ∧
       (∀ r c, ¬(r = row ∧ c = (Move.mk 3).col) →
         (update_game_state newGameState (Move.mk 3)).2.board r c =
           newGameState.board r c)) :=
  ⟨by decide, legal_drop_lands_in_lowest_empty_row newGameState (Move.mk 3) (by decide)⟩

/-- The checked scan loop succeeds whenever the column is in range and the
starting row is on the board, and agrees with the unchecked loop. -/
lemma find_row_aux_chk_eq (gs : GameState) (col : Nat) (hc : col < 7) :
    ∀ n, n < 6 → find_row_aux_chk gs col n = some (find_row_aux gs col n) := by
  intro n
  induction n with
  | zero => intro _; simp [find_row_aux_chk, find_row_aux]
  | succ k ih =>
    intro hk
    unfold find_row_aux_chk find_row_aux
    have hget : board_get? gs (k + 1) col = some (gs.board (k + 1) col) := by
      simp only [board_get?, if_pos (by omega : k + 1 < 6 ∧ col < 7)]
    rw [hget]
    by_cases hv : (gs.board (k + 1) col != 0) = true
    · simp only [hv, if_true]
      exact ih (by omega)
    · simp only [Bool.not_eq_true] at hv
      simp only [hv, Bool.false_eq_true, if_false]

/-- Claim C10: `is_valid_move` and `update_game_state` are total for every
board state and every (unbounded) column index — the bounds-checked mirror of
each function never hits an out-of-range access (never returns `none`) and
agrees with the unchecked embedding, and the row scan never leaves rows
0..5. -/
theorem move_functions_total_and_in_bounds (gs : GameState) (m : Move) :
    is_valid_move_chk gs m = some (is_valid_move gs m) ∧
    update_game_state_chk gs m = some (update_game_state gs m) ∧
    find_row_aux gs m.col 5 < 6 := by
  have hval : is_valid_move_chk gs m = some (is_valid_move gs m) := by
    by_cases hc : m.col < 7
    · simp [is_valid_move_chk, board_get?, is_valid_move, hc]
    · simp [is_valid_move_chk, is_valid_move, hc]
  have hrow : find_row_aux gs m.col 5 < 6 := by
    have := find_row_aux_le gs m.col 5
    omega
  refine ⟨hval, ?_, hrow⟩
  by_cases hv : is_valid_move gs m = true
  · have hc : m.col < 7 := ((is_valid_move_iff gs m).mp hv).1
    rw [update_game_state_chk, hval, hv]
    rw [find_row_aux_chk_eq gs m.col hc 5 (by omega)]
    simp only [board_set?, if_pos (And.intro hrow hc)]
    simp [update_game_state, hv]
  · have hvf : is_valid_move gs m = false := by simpa using hv
    rw [update_game_state_chk, hval, hvf,
        update_game_state_of_invalid gs m hvf]

/-- Claim C8: a successful move can only create a win for the mover.  If
`check_winner` is false for a symbol `s` and the turn belongs to the opposite
symbol `-s`, then after any legal move `check_winner` is still false for `s`:
the move writes `-s` into a previously empty cell, so the set of cells equal
to `s` is unchanged. -/
theorem opponent_move_cannot_create_win (gs : GameState) (s : Int) (m : Move)
    (hw : check_winner gs s = false) (hturn : gs.current_turn = -s)
    (hv : is_valid_move gs m = true) :
    check_winner (update_game_state gs m).2 s = false := by
  have h0 : gs.board 0 m.col = 0 := ((is_valid_move_iff gs m).mp hv).2
  have hrow : gs.board (find_row_aux gs m.col 5) m.col = 0 :=
    find_row_aux_empty gs m.col h0 5
  have key : ∀ r c, ((update_game_state gs m).2.board r c == s) =
      (gs.board r c == s) := by
    intro r c
    rw [update_game_state_board_of_valid gs m hv]
    by_cases hc : r = find_row_aux gs m.col 5 ∧ c = m.col
    · rw [if_pos hc, hturn]
      obtain ⟨hr, hcc⟩ := hc
      subst hr
      subst hcc
      rw [hrow]
      apply Bool.eq_iff_iff.mpr
      simp only [beq_iff_eq]
      omega
    · rw [if_neg hc]
  have hw2 := hw
  simp only [check_winner] at hw2
  simp only [check_winner, key]
  exact hw2

/-- Witness for C8: on the fresh board (turn 1, no win for -1) a legal drop
by player 1 into column 0 still leaves no win for -1. -/
theorem opponent_move_no_win_witness :
    check_winner newGameState (-1) = false ∧
    newGameState.current_turn = -(-1) ∧
    is_valid_move newGameState (Move.mk 0) = true ∧
    check_winner (update_game_state newGameState (Move.mk 0)).2 (-1) = false :=
  ⟨by decide, by decide, by decide,
   opponent_move_cannot_create_win newGameState (-1) (Move.mk 0)
     (by decide) (by decide) (by decide)⟩

/-- Claim C1: `check_winner` returns true for a symbol iff at least one run
of four contiguous cells of that symbol exists in the 6×7 grid in one of the
four directions — horizontal, vertical, or either diagonal — with every
window of length 4 that fits on the board considered. -/
theorem check_winner_iff_four_in_a_row (gs : GameState) (s : Int) :
    check_winner gs s = true ↔ has_won_spec gs s := by
  unfold check_winner has_won_spec
  simp only [List.any_eq_true, List.mem_range, List.mem_range'_1, Bool.or_eq_true,
    Bool.and_eq_true, beq_iff_eq]
  constructor
  · rintro (((⟨r, hr, c, hc, ⟨⟨h0, h1⟩, h2⟩, h3⟩ |
              ⟨c, hc, r, hr, ⟨⟨h0, h1⟩, h2⟩, h3⟩) |
              ⟨r, hr, c, hc, ⟨⟨h0, h1⟩, h2⟩, h3⟩) |
              ⟨r, ⟨hr3, hr6⟩, c, hc, ⟨⟨h0, h1⟩, h2⟩, h3⟩)
    · refine Or.inl ⟨r, c, hr, by omega, ?_⟩
      intro i hi
      interval_cases i
      · simpa using h0
      · exact h1
      · exact h2
      · exact h3
    · refine Or.inr (Or.inl ⟨r, c, by omega, hc, ?_⟩)
      intro i hi
      interval_cases i
      · simpa using h0
      · exact h1
      · exact h2
      · exact h3
    · refine Or.inr (Or.inr (Or.inl ⟨r, c, by omega, by omega, ?_⟩))
      intro i hi
      interval_cases i
      · simpa using h0
      · exact h1
      · exact h2
      · exact h3
    · refine Or.inr (Or.inr (Or.inr ⟨r, c, hr3, by omega, by omega, ?_⟩))
      intro i hi
      interval_cases i
      · simpa using h0
      · exact h1
      · exact h2
      · exact h3
  · rintro (⟨r, c, hr, hc, hall⟩ | ⟨r, c, hr, hc, hall⟩ | ⟨r, c, hr, hc, hall⟩ |
            ⟨r, c, hr3, hr6, hc, hall⟩)
    · exact Or.inl (Or.inl (Or.inl ⟨r, hr, c, by omega,
        ⟨⟨⟨by simpa using hall 0 (by omega), hall 1 (by omega)⟩,
          hall 2 (by omega)⟩, hall 3 (by omega)⟩⟩))
    · exact Or.inl (Or.inl (Or.inr ⟨c, hc, r, by omega,
        ⟨⟨⟨by simpa using hall 0 (by omega), hall 1 (by omega)⟩,
          hall 2 (by omega)⟩, hall 3 (by omega)⟩⟩))
    · exact Or.inl (Or.inr ⟨r, by omega, c, by omega,
        ⟨⟨⟨by simpa using hall 0 (by omega), hall 1 (by omega)⟩,
          hall 2 (by omega)⟩, hall 3 (by omega)⟩⟩)
    · exact Or.inr ⟨r, by omega, c, by omega,
        ⟨⟨⟨by simpa using hall 0 (by omega), hall 1 (by omega)⟩,
          hall 2 (by omega)⟩, hall 3 (by omega)⟩⟩

end ConnectFour
